import Mathlib

/-!
# Verification of the Airbnb Seattle dashboard core logic

Shallow embedding of `src/app.py`: the listing table, the sidebar filter
chain (lines 58–65), the KPI means (lines 75–77), the grouped aggregations
(`top_neigh` line 85, `top_avail` line 105, `avg_reviews` line 119) and the
CSV export (line 69).  A table is a `List Listing`; numeric columns are `ℚ`
(with `Option ℚ` where the CSV may have missing values, mirroring pandas
NaN); pandas `sort_values` is modelled by Mathlib's stable `insertionSort`
and `mean` over a possibly-empty series by an `Option ℚ` (`none` for NaN).
-/

/-- One row of `cleaned_listings.csv`, with the columns the script uses.
`review_score_avg`, `host_is_superhost` and `reviews_per_month` may be
missing (pandas NaN), hence `Option`. -/
structure Listing where
  name : String
  neighbourhood_cleansed : String
  room_type : String
  price : ℚ
  review_score_avg : Option ℚ
  host_is_superhost : Option Bool
  availability_365 : ℚ
  cancellation_policy : String
  reviews_per_month : Option ℚ
deriving DecidableEq, Repr

/-- The sidebar state: the two multiselects, the price slider and the
superhost checkbox (lines 53–56 of `app.py`). -/
structure Criteria where
  neighborhoods : List String
  room_types : List String
  min_price : ℚ
  max_price : ℚ
  superhost_filter : Bool
deriving DecidableEq, Repr

/-- The filter chain of `app.py` lines 58–65: start from a copy of `df`,
restrict by neighbourhood when the multiselect is nonempty, by room type
when nonempty, always by the price interval, and by
`host_is_superhost == True` when the checkbox is set. -/
def filtered_df (df : List Listing) (c : Criteria) : List Listing :=
  let fd1 := if c.neighborhoods.isEmpty then df
    else df.filter (fun r => c.neighborhoods.contains r.neighbourhood_cleansed)
  let fd2 := if c.room_types.isEmpty then fd1
    else fd1.filter (fun r => c.room_types.contains r.room_type)
  let fd3 := fd2.filter (fun r =>
    decide (c.min_price ≤ r.price) && decide (r.price ≤ c.max_price))
  if c.superhost_filter then
    fd3.filter (fun r => r.host_is_superhost == some true)
  else fd3

/-- The conjunction of the four per-row predicates of the filter chain;
an empty multiselect or an unset checkbox contributes `true`. -/
def rowPred (c : Criteria) (r : Listing) : Bool :=
  ((c.neighborhoods.isEmpty || c.neighborhoods.contains r.neighbourhood_cleansed)
    && (c.room_types.isEmpty || c.room_types.contains r.room_type)
    && (decide (c.min_price ≤ r.price) && decide (r.price ≤ c.max_price)))
  && (!c.superhost_filter || r.host_is_superhost == some true)

/-- pandas `Series.mean()`: NaN on an empty series, else the arithmetic
mean.  `none` models NaN. -/
def meanOpt (xs : List ℚ) : Option ℚ :=
  if xs.isEmpty then none else some (xs.sum / xs.length)

/-- pandas mean over a column with missing values: NaN entries are
skipped; if every entry is missing the mean is NaN. -/
def meanOfOpts (xs : List (Option ℚ)) : Option ℚ :=
  meanOpt (xs.filterMap id)

/-- Mean of a group produced by `groupby`: groups are nonempty by
construction, so plain division is the pandas value. -/
def meanQ (xs : List ℚ) : ℚ := xs.sum / xs.length

/-- The distinct keys of a `groupby`, sorted ascending, as pandas
`groupby(col)` does with its default `sort=True`. -/
def sortedKeys (keys : List String) : List String :=
  List.insertionSort (fun a b : String => a ≤ b) keys.dedup

/-- `df.groupby(key)[val].mean()`: one `(key, mean val)` pair per distinct
key, keys ascending. -/
def groupMeanBy (df : List Listing) (key : Listing → String) (val : Listing → ℚ) :
    List (String × ℚ) :=
  (sortedKeys (df.map key)).map
    (fun k => (k, meanQ ((df.filter (fun r => key r == k)).map val)))

/-- `groupby(key)[val].mean()` for a column with missing values: the group
mean is NaN (`none`) when every value in the group is missing. -/
def groupOptMeanBy (df : List Listing) (key : Listing → String)
    (val : Listing → Option ℚ) : List (String × Option ℚ) :=
  (sortedKeys (df.map key)).map
    (fun k => (k, meanOfOpts ((df.filter (fun r => key r == k)).map val)))

/-- Descending order on the mean component, for `sort_values(ascending=False)`. -/
def meanDesc (a b : String × ℚ) : Prop := b.2 ≤ a.2

instance : DecidableRel meanDesc := fun a b =>
  inferInstanceAs (Decidable (b.2 ≤ a.2))

instance : IsTotal (String × ℚ) meanDesc :=
  ⟨fun a b => le_total b.2 a.2⟩

instance : IsTrans (String × ℚ) meanDesc :=
  ⟨fun _ _ _ h1 h2 => le_trans h2 h1⟩

/-- Order on an optional mean with NaN (`none`) sorted last, as pandas
`sort_values()` does with its default `na_position` of last. -/
def optLeQ : Option ℚ → Option ℚ → Prop
  | some x, some y => x ≤ y
  | _, none => True
  | none, some _ => False

instance : DecidableRel optLeQ := fun a b =>
  match a, b with
  | some x, some y => inferInstanceAs (Decidable (x ≤ y))
  | some _, none => isTrue trivial
  | none, none => isTrue trivial
  | none, some _ => isFalse id

instance : IsTotal (Option ℚ) optLeQ := ⟨by
  intro a b
  cases a with
  | none =>
    cases b with
    | none => exact Or.inl trivial
    | some y => exact Or.inr trivial
  | some x =>
    cases b with
    | none => exact Or.inl trivial
    | some y => exact (le_total x y).imp id id⟩

instance : IsTrans (Option ℚ) optLeQ := ⟨by
  intro a b c h1 h2
  cases c with
  | none => cases a <;> exact trivial
  | some z =>
    cases b with
    | none => exact h2.elim
    | some y =>
      cases a with
      | none => exact h1.elim
      | some x => exact le_trans h1 h2⟩

/-- Ascending order on the mean component, `none` last. -/
def meanAscOpt (a b : String × Option ℚ) : Prop := optLeQ a.2 b.2

instance : DecidableRel meanAscOpt := fun a b =>
  inferInstanceAs (Decidable (optLeQ a.2 b.2))

instance : IsTotal (String × Option ℚ) meanAscOpt :=
  ⟨fun a b => total_of optLeQ a.2 b.2⟩

instance : IsTrans (String × Option ℚ) meanAscOpt :=
  ⟨fun _ _ _ h1 h2 => trans_of optLeQ h1 h2⟩

/-- Line 85: `filtered_df.groupby("neighbourhood_cleansed")["price"].mean()
.sort_values(ascending=False).head(10)`.  `sort_values`'s default
`kind='quicksort'` is documented as not stable, so the order of entries
with equal means is unspecified by the program; `insertionSort` here fixes
one admissible sorted order, and no theorem below relies on which order
ties take. -/
def top_neigh (t : List Listing) : List (String × ℚ) :=
  (List.insertionSort meanDesc
    (groupMeanBy t (·.neighbourhood_cleansed) (·.price))).take 10

/-- Line 105: the same pipeline over `availability_365`, with the same
unspecified tie order. -/
def top_avail (t : List Listing) : List (String × ℚ) :=
  (List.insertionSort meanDesc
    (groupMeanBy t (·.neighbourhood_cleansed) (·.availability_365))).take 10

/-- Line 119: `filtered_df.groupby('room_type')['reviews_per_month'].mean()
.sort_values()`. -/
def avg_reviews (t : List Listing) : List (String × Option ℚ) :=
  List.insertionSort meanAscOpt
    (groupOptMeanBy t (·.room_type) (·.reviews_per_month))

/-- KPI card 1 (line 75): the row count of the filtered table. -/
def kpiListings (t : List Listing) : ℕ := t.length

/-- KPI card 2 (line 76): `filtered_df['price'].mean()`. -/
def kpiAvgPrice (t : List Listing) : Option ℚ := meanOpt (t.map (·.price))

/-- KPI card 3 (line 77): `filtered_df['review_score_avg'].mean()`,
NaN-skipping over the possibly-missing column. -/
def kpiAvgRating (t : List Listing) : Option ℚ :=
  meanOfOpts (t.map (·.review_score_avg))

/-- `df['price'].max()`, the slider's upper bound source (line 55); `0` on
an empty table so the fold is total. -/
def maxPriceOf (t : List Listing) : ℚ := (t.map (·.price)).foldr max 0

/-- A CSV cell needs quoting when it holds a separator, a quote or a line
break (the minimal quoting `DataFrame.to_csv` emits). -/
def needsQuote (f : List Char) : Bool :=
  f.any (fun c => c = ',' || c = '"' || c = '\n')

/-- Double every quote character of a quoted cell's content. -/
def escapeChars : List Char → List Char
  | [] => []
  | c :: cs => if c = '"' then '"' :: '"' :: escapeChars cs else c :: escapeChars cs

/-- Serialize one cell: wrapped in quotes, with inner quotes doubled, when
the content requires it; verbatim otherwise. -/
def encodeField (f : List Char) : List Char :=
  if needsQuote f then '"' :: (escapeChars f ++ ['"']) else f

/-- Serialize one row: cells joined by commas. -/
def encodeRow (r : List (List Char)) : List Char :=
  List.intercalate [','] (r.map encodeField)

/-- Serialize a table: every row terminated by a newline, as
`to_csv(index=False)` produces (header row included by the caller). -/
def encodeCsv (rows : List (List (List Char))) : List Char :=
  (rows.map (fun r => encodeRow r ++ ['\n'])).flatten

/-- CSV reader state machine: remaining input, inside-quotes flag, current
cell (reversed), current row (reversed), finished rows (reversed). -/
def parseAux : List Char → Bool → List Char → List (List Char) →
    List (List (List Char)) → List (List (List Char))
  | [], _, field, row, rows =>
    if field.isEmpty && row.isEmpty then rows.reverse
    else (((field.reverse :: row).reverse :: rows)).reverse
  | '"' :: '"' :: cs, true, field, row, rows =>
    parseAux cs true ('"' :: field) row rows
  | '"' :: cs, true, field, row, rows => parseAux cs false field row rows
  | c :: cs, true, field, row, rows => parseAux cs true (c :: field) row rows
  | c :: cs, false, field, row, rows =>
    if c = ',' then parseAux cs false [] (field.reverse :: row) rows
    else if c = '\n' then parseAux cs false [] [] ((field.reverse :: row).reverse :: rows)
    else if c = '"' then parseAux cs true field row rows
    else parseAux cs false (c :: field) row rows

/-- Parse a CSV byte stream back into its grid of cells. -/
def parseCsv (cs : List Char) : List (List (List Char)) :=
  parseAux cs false [] [] []

/-- Decimal text of a numeric cell. -/
def renderRat (q : ℚ) : List Char := (toString q).data

/-- A missing numeric value serializes as the empty cell (pandas NaN). -/
def renderOptRat : Option ℚ → List Char
  | none => []
  | some q => renderRat q

/-- A boolean cell: `True`/`False`, empty when missing. -/
def renderOptBool : Option Bool → List Char
  | none => []
  | some true => "True".data
  | some false => "False".data

/-- The cells of one exported row, in the column order of the schema. -/
def renderListing (r : Listing) : List (List Char) :=
  [r.name.data, r.neighbourhood_cleansed.data, r.room_type.data,
   renderRat r.price, renderOptRat r.review_score_avg,
   renderOptBool r.host_is_superhost, renderRat r.availability_365,
   r.cancellation_policy.data, renderOptRat r.reviews_per_month]

/-- The header row of the export. -/
def csvHeader : List (List Char) :=
  ["name".data, "neighbourhood_cleansed".data, "room_type".data,
   "price".data, "review_score_avg".data, "host_is_superhost".data,
   "availability_365".data, "cancellation_policy".data,
   "reviews_per_month".data]

/-- Line 69: `csv = filtered_df.to_csv(index=False).encode('utf-8')`. -/
def csv (t : List Listing) : List Char :=
  encodeCsv (csvHeader :: t.map renderListing)

/-- One full script re-run: the loaded table is carried through unchanged
while every derived value is computed from `filtered_df`, which starts
from `df.copy()` (line 58); nothing writes back into the loaded table. -/
def renderCycle (df : List Listing) (c : Criteria) :
    List Listing × (ℕ × Option ℚ × Option ℚ) × List Char ×
      List (String × ℚ) × List (String × ℚ) × List (String × Option ℚ) :=
  let fd := filtered_df df c
  (df, (kpiListings fd, kpiAvgPrice fd, kpiAvgRating fd), csv fd,
    top_neigh fd, top_avail fd, avg_reviews fd)

/-- A concrete listing used to exercise the theorems on closed inputs. -/
def sampleA : Listing :=
  ⟨"Cozy loft", "Ballard", "Entire home/apt", 120, some 9, some true, 200,
    "strict", some 2⟩

/-- A listing with missing rating, superhost and review-rate cells. -/
def sampleB : Listing :=
  ⟨"Quiet room", "Fremont", "Private room", 60, none, none, 100,
    "flexible", none⟩

/-- A listing priced outside the default slider range. -/
def sampleC : Listing :=
  ⟨"Grand villa", "Ballard", "Entire home/apt", 700, some 8, some false, 300,
    "moderate", some 1⟩

/-- A three-row concrete table. -/
def sampleDf : List Listing := [sampleA, sampleB, sampleC]

theorem filtered_df_eq_filter (df : List Listing) (c : Criteria) :
    filtered_df df c = df.filter (rowPred c) := by
  unfold filtered_df rowPred
  cases hn : c.neighborhoods.isEmpty <;> cases hr : c.room_types.isEmpty <;>
    cases hs : c.superhost_filter <;>
      simp only [hn, hr, hs, if_true, if_false, Bool.false_eq_true, ite_true, ite_false,
        List.filter_filter, Bool.true_or, Bool.false_or, Bool.not_true, Bool.not_false,
        Bool.or_true, Bool.and_true, Bool.true_and] <;>
    · apply List.filter_congr
      intro r _
      simp [Bool.and_assoc, Bool.and_comm, Bool.and_left_comm]

theorem le_foldr_max (l : List ℚ) (x : ℚ) (hx : x ∈ l) : x ≤ l.foldr max 0 := by
  induction l with
  | nil => cases hx
  | cons a l ih =>
    rcases List.mem_cons.mp hx with h | h
    · subst h
      exact le_max_left _ _
    · exact le_trans (ih h) (le_max_right _ _)

theorem price_le_maxPriceOf (t : List Listing) (r : Listing) (hr : r ∈ t) :
    r.price ≤ maxPriceOf t :=
  le_foldr_max _ _ (List.mem_map_of_mem _ hr)

theorem contains_iff_mem (l : List String) (a : String) :
    l.contains a = true ↔ a ∈ l := by
  simp

theorem rowPred_true_iff (c : Criteria) (r : Listing) :
    rowPred c r = true ↔
      (c.neighborhoods = [] ∨ r.neighbourhood_cleansed ∈ c.neighborhoods)
      ∧ (c.room_types = [] ∨ r.room_type ∈ c.room_types)
      ∧ (c.min_price ≤ r.price ∧ r.price ≤ c.max_price)
      ∧ (c.superhost_filter = false ∨ r.host_is_superhost = some true) := by
  simp only [rowPred, Bool.and_eq_true, Bool.or_eq_true, decide_eq_true_eq,
    beq_iff_eq, List.isEmpty_iff, Bool.not_eq_true', contains_iff_mem]
  tauto

/-- C1: every row of the filtered table is a row of the loaded table, and
satisfies every active predicate: neighbourhood in the selected set unless
the set is empty, room type likewise, `min_price ≤ price ≤ max_price`, and
`host_is_superhost = true` whenever the superhost flag is set. -/
theorem filtered_df_sound (df : List Listing) (c : Criteria) (r : Listing)
    (h : r ∈ filtered_df df c) :
    r ∈ df ∧ (c.neighborhoods = [] ∨ r.neighbourhood_cleansed ∈ c.neighborhoods)
      ∧ (c.room_types = [] ∨ r.room_type ∈ c.room_types)
      ∧ c.min_price ≤ r.price ∧ r.price ≤ c.max_price
      ∧ (c.superhost_filter = true → r.host_is_superhost = some true) := by
  rw [filtered_df_eq_filter] at h
  obtain ⟨hmem, hp⟩ := List.mem_filter.mp h
  obtain ⟨h1, h2, h3, h4⟩ := (rowPred_true_iff c r).mp hp
  refine ⟨hmem, h1, h2, h3.1, h3.2, ?_⟩
  intro hs
  rcases h4 with h4 | h4
  · rw [hs] at h4
    cases h4
  · exact h4

theorem filtered_df_sound_witness :
    sampleA ∈ filtered_df sampleDf ⟨["Ballard"], ["Entire home/apt"], 50, 500, true⟩
    ∧ (sampleA ∈ sampleDf
      ∧ ((["Ballard"] : List String) = []
          ∨ sampleA.neighbourhood_cleansed ∈ (["Ballard"] : List String))
      ∧ ((["Entire home/apt"] : List String) = []
          ∨ sampleA.room_type ∈ (["Entire home/apt"] : List String))
      ∧ (50 : ℚ) ≤ sampleA.price ∧ sampleA.price ≤ (500 : ℚ)
      ∧ (true = true → sampleA.host_is_superhost = some true)) :=
  ⟨by decide,
    filtered_df_sound sampleDf ⟨["Ballard"], ["Entire home/apt"], 50, 500, true⟩
      sampleA (by decide)⟩

/-- C2: with both multiselects empty, the superhost box unchecked and the
price interval spanning `0` to the table's maximum price, the filter
returns the loaded table unchanged (given the table's prices are
non-negative, as the dataset's prices are). -/
theorem filtered_df_full_range_id (df : List Listing)
    (h : ∀ r ∈ df, 0 ≤ r.price) :
    filtered_df df ⟨[], [], 0, maxPriceOf df, false⟩ = df := by
  rw [filtered_df_eq_filter]
  apply List.filter_eq_self.mpr
  intro r hr
  apply (rowPred_true_iff _ r).mpr
  exact ⟨Or.inl rfl, Or.inl rfl, ⟨h r hr, price_le_maxPriceOf df r hr⟩, Or.inl rfl⟩

theorem filtered_df_full_range_id_witness :
    (∀ r ∈ sampleDf, 0 ≤ r.price)
    ∧ filtered_df sampleDf ⟨[], [], 0, maxPriceOf sampleDf, false⟩ = sampleDf :=
  ⟨by decide, filtered_df_full_range_id sampleDf (by decide)⟩

/-- C4: the filter is idempotent — re-applying the same criteria to an
already-filtered table changes nothing. -/
theorem filtered_df_idempotent (df : List Listing) (c : Criteria) :
    filtered_df (filtered_df df c) c = filtered_df df c := by
  rw [filtered_df_eq_filter df c, filtered_df_eq_filter (df.filter (rowPred c)) c,
    List.filter_filter]
  exact List.filter_congr fun a _ => Bool.and_self _

/-- C5: the filtered table is a sublist of the loaded table — its rows
appear in the same relative order as in the loaded table. -/
theorem filtered_df_order_preserving (df : List Listing) (c : Criteria) :
    (filtered_df df c).Sublist df := by
  rw [filtered_df_eq_filter]
  exact List.filter_sublist _

/-- C6: when the filtered table is empty, every aggregation is still
defined and total: both mean KPIs are NaN (`none`, never `some 0`) and the
three grouped chart aggregations are empty sequences. -/
theorem empty_filter_aggregations (df : List Listing) (c : Criteria)
    (h : filtered_df df c = []) :
    kpiListings (filtered_df df c) = 0
    ∧ kpiAvgPrice (filtered_df df c) = none
    ∧ kpiAvgRating (filtered_df df c) = none
    ∧ top_neigh (filtered_df df c) = []
    ∧ top_avail (filtered_df df c) = []
    ∧ avg_reviews (filtered_df df c) = [] := by
  rw [h]
  exact ⟨rfl, rfl, rfl, rfl, rfl, rfl⟩

theorem empty_filter_aggregations_witness :
    filtered_df sampleDf ⟨[], [], 800, 900, false⟩ = []
    ∧ (kpiListings (filtered_df sampleDf ⟨[], [], 800, 900, false⟩) = 0
      ∧ kpiAvgPrice (filtered_df sampleDf ⟨[], [], 800, 900, false⟩) = none
      ∧ kpiAvgRating (filtered_df sampleDf ⟨[], [], 800, 900, false⟩) = none
      ∧ top_neigh (filtered_df sampleDf ⟨[], [], 800, 900, false⟩) = []
      ∧ top_avail (filtered_df sampleDf ⟨[], [], 800, 900, false⟩) = []
      ∧ avg_reviews (filtered_df sampleDf ⟨[], [], 800, 900, false⟩) = []) :=
  ⟨by decide, empty_filter_aggregations sampleDf ⟨[], [], 800, 900, false⟩ (by decide)⟩

/-- C9: a full render cycle returns the loaded table unchanged next to all
derived outputs: filtering starts from a copy and no aggregation writes
back into the loaded table. -/
theorem renderCycle_preserves_df (df : List Listing) (c : Criteria) :
    (renderCycle df c).1 = df := rfl

/-- C10: with the superhost box checked, only rows whose
`host_is_superhost` cell compares equal to `true` survive; rows with a
missing (`none`) or `false` cell are excluded, exactly as if missing were
`false`. -/
theorem superhost_missing_excluded (df : List Listing) (c : Criteria)
    (h : c.superhost_filter = true) :
    (∀ r ∈ filtered_df df c, r.host_is_superhost = some true)
    ∧ (∀ r ∈ df, r.host_is_superhost ≠ some true → r ∉ filtered_df df c) := by
  have hkeep : ∀ r ∈ filtered_df df c, r.host_is_superhost = some true := by
    intro r hr
    rw [filtered_df_eq_filter] at hr
    obtain ⟨_, _, _, h4⟩ := (rowPred_true_iff c r).mp (List.mem_filter.mp hr).2
    rcases h4 with h4 | h4
    · rw [h] at h4
      cases h4
    · exact h4
  exact ⟨hkeep, fun r _ hne hr => hne (hkeep r hr)⟩

theorem superhost_missing_excluded_witness :
    (Criteria.mk [] [] 0 1000 true).superhost_filter = true
    ∧ ((∀ r ∈ filtered_df sampleDf ⟨[], [], 0, 1000, true⟩,
          r.host_is_superhost = some true)
      ∧ (∀ r ∈ sampleDf, r.host_is_superhost ≠ some true →
          r ∉ filtered_df sampleDf ⟨[], [], 0, 1000, true⟩)) :=
  ⟨rfl, superhost_missing_excluded sampleDf ⟨[], [], 0, 1000, true⟩ rfl⟩

/-- C8: `avg_reviews` (group by room type, mean reviews per month, sort
ascending) is sorted ascending in the mean value, missing means last. -/
theorem avg_reviews_sorted (t : List Listing) :
    List.Sorted meanAscOpt (avg_reviews t) :=
  List.sorted_insertionSort meanAscOpt _

theorem parseAux_step_comma (cs : List Char) (field row rows) :
    parseAux (',' :: cs) false field row rows
      = parseAux cs false [] (field.reverse :: row) rows := by
  simp [parseAux]

theorem parseAux_step_newline (cs : List Char) (field row rows) :
    parseAux ('\n' :: cs) false field row rows
      = parseAux cs false [] [] ((field.reverse :: row).reverse :: rows) := by
  simp [parseAux]

theorem parseAux_step_open (cs : List Char) (field row rows) :
    parseAux ('"' :: cs) false field row rows = parseAux cs true field row rows := by
  simp [parseAux]

theorem parseAux_step_plain (c : Char) (cs : List Char) (field row rows)
    (h1 : ¬ c = ',') (h2 : ¬ c = '\n') (h3 : ¬ c = '"') :
    parseAux (c :: cs) false field row rows
      = parseAux cs false (c :: field) row rows := by
  simp [parseAux, h1, h2, h3]

theorem parseAux_plain (f rest : List Char) (field row rows)
    (hf : ∀ c ∈ f, ¬ c = ',' ∧ ¬ c = '\n' ∧ ¬ c = '"') :
    parseAux (f ++ rest) false field row rows
      = parseAux rest false (f.reverse ++ field) row rows := by
  induction f generalizing field with
  | nil => simp
  | cons c f ih =>
    obtain ⟨h1, h2, h3⟩ := hf c (List.mem_cons_self c f)
    rw [List.cons_append, parseAux_step_plain c _ _ _ _ h1 h2 h3,
      ih (c :: field) (fun d hd => hf d (List.mem_cons_of_mem c hd))]
    simp

theorem parseAux_quoted (f rest : List Char) (field row rows)
    (hrest : ∀ cs2, rest = '"' :: cs2 → False) :
    parseAux (escapeChars f ++ '"' :: rest) true field row rows
      = parseAux rest false (f.reverse ++ field) row rows := by
  induction f generalizing field with
  | nil => exact parseAux.eq_3 field row rows rest hrest
  | cons c f ih =>
    by_cases hc : c = '"'
    · subst hc
      show parseAux ('"' :: '"' :: (escapeChars f ++ '"' :: rest)) true field row rows = _
      rw [parseAux.eq_2, ih ('"' :: field)]
      simp
    · have he : escapeChars (c :: f) = c :: escapeChars f := by
        simp [escapeChars, hc]
      rw [he, List.cons_append,
        parseAux.eq_4 field row rows c _ (fun _ hc2 _ => hc hc2) hc, ih (c :: field)]
      simp

theorem no_special_of_not_needsQuote (f : List Char) (h : needsQuote f = false) :
    ∀ c ∈ f, ¬ c = ',' ∧ ¬ c = '\n' ∧ ¬ c = '"' := by
  intro c hc
  simp only [needsQuote, List.any_eq_false, Bool.or_eq_true, decide_eq_true_eq,
    not_or] at h
  obtain ⟨⟨h1, h2⟩, h3⟩ := h c hc
  exact ⟨h1, h3, h2⟩

theorem parseAux_encodeField (f rest : List Char) (row rows)
    (hrest : ∀ cs2, rest = '"' :: cs2 → False) :
    parseAux (encodeField f ++ rest) false [] row rows
      = parseAux rest false f.reverse row rows := by
  by_cases hq : needsQuote f = true
  · have he : encodeField f = '"' :: (escapeChars f ++ ['"']) := by
      simp [encodeField, hq]
    rw [he, List.cons_append, parseAux_step_open, List.append_assoc,
      List.singleton_append, parseAux_quoted f rest [] row rows hrest]
    simp
  · have hq2 : needsQuote f = false := by simpa using hq
    have he : encodeField f = f := by simp [encodeField, hq2]
    rw [he, parseAux_plain f rest [] row rows (no_special_of_not_needsQuote f hq2)]
    simp

theorem encodeRow_single (f : List Char) : encodeRow [f] = encodeField f := by
  simp [encodeRow, List.intercalate]

theorem encodeRow_cons (f f2 : List Char) (fs : List (List Char)) :
    encodeRow (f :: f2 :: fs) = encodeField f ++ ',' :: encodeRow (f2 :: fs) := by
  simp [encodeRow, List.intercalate]

theorem parseAux_encodeRow (fs : List (List Char)) (rest : List Char)
    (rowAcc : List (List Char)) (rows : List (List (List Char))) (hfs : fs ≠ []) :
    parseAux (encodeRow fs ++ '\n' :: rest) false [] rowAcc rows
      = parseAux rest false [] [] ((rowAcc.reverse ++ fs) :: rows) := by
  induction fs generalizing rowAcc with
  | nil => exact absurd rfl hfs
  | cons f fs ih =>
    cases fs with
    | nil =>
      rw [encodeRow_single,
        parseAux_encodeField f ('\n' :: rest) rowAcc rows (fun cs2 h => by simp at h),
        parseAux_step_newline]
      simp
    | cons f2 fs2 =>
      rw [encodeRow_cons, List.append_assoc, List.cons_append,
        parseAux_encodeField f _ rowAcc rows (fun cs2 h => by simp at h),
        parseAux_step_comma,
        ih (f.reverse.reverse :: rowAcc) (List.cons_ne_nil f2 fs2)]
      simp

theorem parseAux_encodeCsv (rows : List (List (List Char)))
    (acc : List (List (List Char))) (h : ∀ r ∈ rows, r ≠ []) :
    parseAux (encodeCsv rows) false [] [] acc = acc.reverse ++ rows := by
  induction rows generalizing acc with
  | nil => simp [encodeCsv, parseAux]
  | cons r rows ih =>
    have he : encodeCsv (r :: rows) = encodeRow r ++ '\n' :: encodeCsv rows := by
      simp [encodeCsv]
    rw [he, parseAux_encodeRow r (encodeCsv rows) [] acc (h r (List.mem_cons_self r rows)),
      ih _ (fun r2 h2 => h r2 (List.mem_cons_of_mem r h2))]
    simp

theorem parseCsv_encodeCsv (rows : List (List (List Char)))
    (h : ∀ r ∈ rows, r ≠ []) : parseCsv (encodeCsv rows) = rows := by
  unfold parseCsv
  rw [parseAux_encodeCsv rows [] h]
  simp

/-- C7: parsing the exported CSV byte stream of the filtered table yields
exactly the header row followed by the filtered table's rows, cell for
cell — the export/parse round-trip is the identity on the table. -/
theorem csv_roundTrip (df : List Listing) (c : Criteria) :
    parseCsv (csv (filtered_df df c))
      = csvHeader :: (filtered_df df c).map renderListing := by
  unfold csv
  apply parseCsv_encodeCsv
  intro r hr
  rcases List.mem_cons.mp hr with h | h
  · subst h
    simp [csvHeader]
  · obtain ⟨l, _, rfl⟩ := List.mem_map.mp h
    simp [renderListing]
